import Mathlib

/-!
# Clinic-Booking: shallow embedding of the booking-consistency core

This file embeds the booking core of the Clinic-Booking repository
(backend models `Booking`/`Slot`, `bookingController`, `slotController`)
as executable Lean definitions, and settles the frozen claims about it.

Modelling conventions:
  * Instants are `Nat` milliseconds on the single canonical clock the
    source assumes (the code parses all dates with `Date.UTC`).
  * Mongo ObjectIds become `Nat` identifiers drawn from per-collection
    counters (`nextSlotId`, `nextBookingId`).
  * A request parameter that may be absent or may fail ObjectId casting
    is `Option (Option Nat)`: `none` is an absent/falsy field, `some none`
    is a present but malformed id string (Mongoose `findById` then throws
    a `CastError`, which each controller's `catch` turns into its generic
    500 response), `some (some n)` is a well-formed id.
  * The two Mongo collections are association lists `List (Nat × _)`;
    `findById` returns the first entry with the key, updates rewrite the
    keyed entry in place, inserts prepend a fresh key.  Listing order
    (`sort`) and the `createdAt` timestamps are not modelled: no claim
    concerns creation times or the order of listings.
  * Each `await`ed store operation is one atomic step.  The sequential
    controller functions below chain those steps; the concurrency claim
    additionally uses the decomposition of `Booking`'s pre-save hook into
    its read/check step (`preSaveCheck`) and its write step (`hookCommit`),
    which in the JavaScript are separated by `await` points.
-/

namespace ClinicBooking

/-- `Booking.status` enum of `backend/models/Booking.js`. -/
inductive BStatus
  | confirmed
  | cancelled
  | completed
  deriving DecidableEq, Repr

/-- `req.user.role` as delivered by the auth middleware. -/
inductive Role
  | patient
  | admin
  deriving DecidableEq, Repr

/-- A document of the `Slot` collection (`backend/models/Slot.js`):
`startAt`/`endAt` instants and the denormalized `isBooked` flag. -/
structure Slot where
  startAt : Nat
  endAt : Nat
  isBooked : Bool
  deriving DecidableEq, Repr

/-- A document of the `Booking` collection (`backend/models/Booking.js`):
owning user, referenced slot, and lifecycle status. -/
structure Booking where
  userId : Nat
  slotId : Nat
  status : BStatus
  deriving DecidableEq, Repr

/-- The shared mutable state: both Mongo collections plus fresh-id
counters standing in for ObjectId generation. -/
structure DB where
  slots : List (Nat × Slot)
  bookings : List (Nat × Booking)
  nextSlotId : Nat
  nextBookingId : Nat
  deriving DecidableEq, Repr

/-- The empty database. -/
def emptyDB : DB := ⟨[], [], 0, 0⟩

/-- Mongoose `Model.findById`: first entry with the given key. -/
def findById (id : Nat) : List (Nat × α) → Option α
  | [] => none
  | (k, v) :: rest => if k = id then some v else findById id rest

/-- Write `isBooked := v` on the slot document keyed `sid`
(the effect of `slot.save()` after `slot.isBooked = v`, and of
`Slot.findByIdAndUpdate(sid, { isBooked: v })`). -/
def setBookedList (sid : Nat) (v : Bool) : List (Nat × Slot) → List (Nat × Slot)
  | [] => []
  | (k, s) :: rest =>
      (k, if k = sid then { s with isBooked := v } else s) :: setBookedList sid v rest

/-- Write `status := st` on the booking document keyed `bid`
(the effect of `booking.save()` after `booking.status = st`; the model's
pre-save hook skips documents that are not new). -/
def setStatusList (bid : Nat) (st : BStatus) : List (Nat × Booking) → List (Nat × Booking)
  | [] => []
  | (k, b) :: rest =>
      (k, if k = bid then { b with status := st } else b) :: setStatusList bid st rest

/-- Number of `confirmed` bookings referencing slot `sid`
(the count behind the spec's at-most-one-active-booking-per-slot rule). -/
def confirmedCountL (bs : List (Nat × Booking)) (sid : Nat) : Nat :=
  bs.countP fun p => p.2.slotId == sid && p.2.status == BStatus.confirmed

/-- `bookingController.bookSlot`, lines 50-58: ids of slots whose
half-open window intersects the candidate's
(`startAt: { $lt: slot.endAt }, endAt: { $gt: slot.startAt }`). -/
def slotsOverlapQuery (db : DB) (slot : Slot) : List Nat :=
  (db.slots.filter fun p =>
    decide (p.2.startAt < slot.endAt) && decide (p.2.endAt > slot.startAt)).map Prod.fst

/-- `bookingController.bookSlot`, lines 50-58: `Booking.findOne` for a
`confirmed` booking of this user on one of the intersecting slots. -/
def existsOverlappingBooking (db : DB) (userId : Nat) (slot : Slot) : Bool :=
  db.bookings.any fun p =>
    p.2.userId == userId && p.2.status == BStatus.confirmed
      && (slotsOverlapQuery db slot).contains p.2.slotId

/-- The read-and-check half of `bookingSchema.pre('save')`
(`Booking.js` lines 42-49): re-load the slot and require it present and
not booked.  In the JavaScript this read is an `await`ed step separate
from the writes that follow. -/
def preSaveCheck (db : DB) (sid : Nat) : Bool :=
  match findById sid db.slots with
  | none => false
  | some s => !s.isBooked

/-- The write half of `bookingSchema.pre('save')` plus the insert itself
(`Booking.js` lines 51-53 and the completed `booking.save()`): flip the
slot's `isBooked` flag and commit the new `confirmed` booking.  These
writes are unconditional once the check half has passed: the hook keeps
no lock between its stale read and these writes. -/
def hookCommit (db : DB) (userId sid : Nat) : Nat × DB :=
  let db1 : DB := { db with slots := setBookedList sid true db.slots }
  let bid := db1.nextBookingId
  (bid, { db1 with
            bookings := (bid, ⟨userId, sid, BStatus.confirmed⟩) :: db1.bookings
            nextBookingId := bid + 1 })

/-- Errors raised by the pre-save hook via `next(new Error(...))`.
Neither carries a Mongo duplicate-key code, so the controller's
`error.code === 11000` test never matches them. -/
inductive HookErr
  | slotMissing
  | slotBooked
  deriving DecidableEq, Repr

/-- `new Booking(...); await booking.save()` for a new document: the
pre-save hook runs (re-check the slot, flip its flag) and then the
booking is inserted with status `confirmed`.  Sequential composition of
`preSaveCheck` and `hookCommit`. -/
def saveNewBooking (db : DB) (userId sid : Nat) : Except HookErr (Nat × DB) :=
  match findById sid db.slots with
  | none => .error .slotMissing
  | some s =>
      if s.isBooked then .error .slotBooked
      else .ok (hookCommit db userId sid)

/-- Outcomes of `bookingController.bookSlot`.  The repository never
produces an `INVALID_SLOT_ID` response: the `bookSlotValidation`
middleware records the `isMongoId` failure but `bookSlot` never consults
`validationResult`, so a malformed id reaches `Slot.findById`, throws a
`CastError`, and the `catch` returns the generic 500 `BOOKING_ERROR`. -/
inductive BookResult
  | missingSlotId
  | bookingError
  | slotNotFound
  | slotTaken
  | pastSlot
  | overlappingBooking
  | booked (bookingId : Nat)
  deriving DecidableEq, Repr

/-- `bookingController.bookSlot` (`part_005` lines 6-115), one atomic
store step per `await`:
1. falsy `slotId` → `MISSING_SLOT_ID`;
2. `Slot.findById` (malformed id: `CastError` → catch → `BOOKING_ERROR`),
   absent → `SLOT_NOT_FOUND`;
3. `slot.isBooked` → `SLOT_TAKEN`;
4. `slot.startAt < new Date()` → `PAST_SLOT`;
5. overlap query against the user's confirmed bookings →
   `OVERLAPPING_BOOKING`;
6. `booking.save()` with its pre-save hook; a hook error reaches `catch`
   with no `11000` code, hence `BOOKING_ERROR`, and nothing was written. -/
def bookSlot (now userId : Nat) (slotIdInput : Option (Option Nat)) (db : DB) :
    BookResult × DB :=
  match slotIdInput with
  | none => (.missingSlotId, db)
  | some none => (.bookingError, db)
  | some (some sid) =>
      match findById sid db.slots with
      | none => (.slotNotFound, db)
      | some slot =>
          if slot.isBooked then (.slotTaken, db)
          else if slot.startAt < now then (.pastSlot, db)
          else if existsOverlappingBooking db userId slot then (.overlappingBooking, db)
          else
            match saveNewBooking db userId sid with
            | .error _ => (.bookingError, db)
            | .ok (bid, db1) => (.booked bid, db1)

/-- Outcomes of `bookingController.cancelBooking`. -/
inductive CancelResult
  | cancelError
  | bookingNotFound
  | insufficientPermissions
  | slotNotFound
  | pastBooking
  | slotUpdateFailed
  | cancelled
  deriving DecidableEq, Repr

/-- `bookingController.cancelBooking` (`part_005` lines 198-276):
1. `Booking.findById` (malformed id: `CastError` → catch →
   `CANCEL_BOOKING_ERROR`), absent → `BOOKING_NOT_FOUND`;
2. requester must own the booking or be admin;
3. load the booking's slot, absent → `SLOT_NOT_FOUND`;
4. `slot.startAt < new Date()` → `PAST_BOOKING`;
5. set `booking.status = 'cancelled'` and save (the pre-save hook skips
   non-new documents), then `Slot.findByIdAndUpdate(..., isBooked: false)`;
   a null update result yields `SLOT_UPDATE_FAILED` with the booking left
   cancelled.  No step checks the booking's current status. -/
def cancelBooking (now requesterId : Nat) (role : Role)
    (bookingIdInput : Option Nat) (db : DB) : CancelResult × DB :=
  match bookingIdInput with
  | none => (.cancelError, db)
  | some bid =>
      match findById bid db.bookings with
      | none => (.bookingNotFound, db)
      | some booking =>
          if booking.userId ≠ requesterId ∧ role ≠ Role.admin then
            (.insufficientPermissions, db)
          else
            match findById booking.slotId db.slots with
            | none => (.slotNotFound, db)
            | some slot =>
                if slot.startAt < now then (.pastBooking, db)
                else
                  let db1 : DB := { db with bookings := setStatusList bid BStatus.cancelled db.bookings }
                  match findById booking.slotId db1.slots with
                  | none => (.slotUpdateFailed, db1)
                  | some _ =>
                      (.cancelled,
                        { db1 with slots := setBookedList booking.slotId false db1.slots })

/-- Outcomes of `slotController.addSlot`. -/
inductive AddSlotResult
  | invalidTimeRange
  | slotExists
  | added (slotId : Nat)
  deriving DecidableEq, Repr

/-- `slotController.addSlot` (lines 251-331), after the missing/format
checks that the claims do not touch: reject `startAt >= endAt`, reject a
duplicate `(startAt, endAt)` pair, otherwise insert an unbooked slot. -/
def addSlot (startAt endAt : Nat) (db : DB) : AddSlotResult × DB :=
  if startAt ≥ endAt then (.invalidTimeRange, db)
  else if db.slots.any (fun p => p.2.startAt == startAt && p.2.endAt == endAt) then
    (.slotExists, db)
  else
    let sid := db.nextSlotId
    (.added sid,
      { db with slots := (sid, ⟨startAt, endAt, false⟩) :: db.slots, nextSlotId := sid + 1 })

/-- Outcomes of `slotController.removeSlot`. -/
inductive RemoveSlotResult
  | slotNotFound
  | slotBooked
  | removed
  deriving DecidableEq, Repr

/-- `slotController.removeSlot` (lines 334-372): absent → 404, booked →
`SLOT_BOOKED`, otherwise `findByIdAndDelete`. -/
def removeSlot (sid : Nat) (db : DB) : RemoveSlotResult × DB :=
  match findById sid db.slots with
  | none => (.slotNotFound, db)
  | some s =>
      if s.isBooked then (.slotBooked, db)
      else (.removed, { db with slots := db.slots.filter fun p => p.1 != sid })

/-! ## Slot listing (`slotController.getAvailableSlots` / `getAllSlots`)

Calendar dates are `Nat` days since the epoch; the controllers expand
them to millisecond instants `from@00:00:00` and `to@23:59:59` with
`Date.UTC`. -/

/-- Milliseconds per calendar day. -/
def msPerDay : Nat := 86400000

/-- JavaScript `Math.ceil(a / b)` for integer `a` and positive integer
`b`: the exact rational ceiling, written as negated floor division.
(The float division in the source is exact enough that its ceiling
agrees with the rational one for every representable date.) -/
def jsCeilDiv (a b : Int) : Int := -((-a).fdiv b)

/-- The range query both listings share: slots with
`startAt ∈ [fromMs, toMs]`, restricted to unbooked slots unless
`includeBooked` is truthy.  The `sort({ startAt: 1 })` ordering is not
modelled: no claim concerns it. -/
def rangeFilter (fromMs toMs : Nat) (includeBooked : Bool) (db : DB) : List (Nat × Slot) :=
  db.slots.filter fun p =>
    decide (fromMs ≤ p.2.startAt) && decide (p.2.startAt ≤ toMs)
      && (includeBooked || !p.2.isBooked)

/-- Outcomes of the two slot-listing endpoints. -/
inductive ListResult
  | missingDates
  | invalidDateFormat
  | pastDate
  | dateRangeTooLarge
  | ok (slots : List (Nat × Slot))
  deriving DecidableEq, Repr

/-- `slotController.getAvailableSlots` (lines 75-168), the patient-facing
listing: missing dates → `MISSING_DATES`; unparsable dates →
`INVALID_DATE_FORMAT`; `fromDate` before the start of the current day →
`PAST_DATE`; `Math.ceil((toDate - fromDate) / 86400000) > 7` →
`DATE_RANGE_TOO_LARGE`; otherwise the range query.  `today` is the
current epoch day (`now.setHours(0,0,0,0)` on the canonical clock). -/
def getAvailableSlots (today : Nat) (fromInput toInput : Option (Option Nat))
    (includeBooked : Bool) (db : DB) : ListResult :=
  match fromInput, toInput with
  | none, _ => .missingDates
  | _, none => .missingDates
  | some none, some _ => .invalidDateFormat
  | some (some _), some none => .invalidDateFormat
  | some (some f), some (some t) =>
      let fromMs := f * msPerDay
      let toMs := t * msPerDay + 86399000
      if fromMs < today * msPerDay then .pastDate
      else if 7 < jsCeilDiv ((toMs : Int) - (fromMs : Int)) (msPerDay : Int) then
        .dateRangeTooLarge
      else .ok (rangeFilter fromMs toMs includeBooked db)

/-- `slotController.getAllSlots` (lines 4-72), the admin listing: the
same missing/format checks, then the range query over all slots — no
past-date and no range-size restriction. -/
def getAllSlots (fromInput toInput : Option (Option Nat)) (db : DB) : ListResult :=
  match fromInput, toInput with
  | none, _ => .missingDates
  | _, none => .missingDates
  | some none, some _ => .invalidDateFormat
  | some (some _), some none => .invalidDateFormat
  | some (some f), some (some t) =>
      let fromMs := f * msPerDay
      let toMs := t * msPerDay + 86399000
      .ok (rangeFilter fromMs toMs true db)

/-! ## Slot generation (`slotController.generateSlots`) -/

/-- `currentDate.getDay() === 0 || currentDate.getDay() === 6` on the
canonical clock: epoch day 0 (1970-01-01) was a Thursday, so the day of
week of epoch day `d` is `(d + 4) % 7` with `0` = Sunday, `6` =
Saturday. -/
def isWeekend (d : Nat) : Bool :=
  (d + 4) % 7 == 0 || (d + 4) % 7 == 6

/-- The inner loops of `generateSlots` (lines 201-222) for one day:
`for (hour = 9; hour < 17; hour++) for (minute = 0; minute < 60;
minute += 30)`, each slot 30 minutes long. -/
def slotTimesForDay (d : Nat) : List (Nat × Nat) :=
  (List.range 8).flatMap fun h =>
    [0, 30].map fun m =>
      let slotStart := d * msPerDay + (9 + h) * 3600000 + m * 60000
      (slotStart, slotStart + 1800000)

/-- The `(startAt, endAt)` pairs `generateSlots` (lines 184-227) inserts
for the window `[startDay, startDay + days)`: weekend days are skipped
entirely, and each candidate pair is dropped when an identical slot
already exists in the store (`Slot.findOne({ startAt, endAt })`). -/
def generateSlotsPairs (db : DB) (startDay days : Nat) : List (Nat × Nat) :=
  (List.range days).flatMap fun i =>
    let d := startDay + i
    if isWeekend d then []
    else
      (slotTimesForDay d).filter fun pr =>
        !(db.slots.any fun p => p.2.startAt == pr.1 && p.2.endAt == pr.2)

/-- The canonical description of one generated weekday: sixteen
consecutive 30-minute slots, the `k`-th starting at `09:00 + k·30min`,
the first at 09:00 and the last ending at 17:00. -/
def expectedDaySlots (d : Nat) : List (Nat × Nat) :=
  (List.range 16).map fun k =>
    (d * msPerDay + 9 * 3600000 + k * 1800000,
     d * msPerDay + 9 * 3600000 + (k + 1) * 1800000)

/-! ## Invariants and reachability -/

/-- The §3 invariant the spec states for the denormalized cache: a
stored slot's `isBooked` flag is `true` iff exactly one `confirmed`
booking references it. -/
def SlotInvariant (db : DB) : Prop :=
  ∀ sid s, findById sid db.slots = some s →
    (s.isBooked = true ↔ confirmedCountL db.bookings sid = 1)

/-- The target of a cancel request currently has status `confirmed`
(vacuously true for a malformed id or an absent booking).  Used to
restrict reachability to runs that only cancel active bookings. -/
def cancelTargetsConfirmedB (db : DB) (inp : Option Nat) : Bool :=
  match inp with
  | none => true
  | some bid =>
      match findById bid db.bookings with
      | none => true
      | some b => b.status == BStatus.confirmed

/-- States reachable from the empty store by the sequential core
operations the invariant claim quantifies over: `BookSlot`,
`CancelBooking`, slot creation and slot deletion, with arbitrary
arguments and outcomes. -/
inductive Reachable : DB → Prop
  | init : Reachable emptyDB
  | book (now u : Nat) (inp : Option (Option Nat)) (db : DB) :
      Reachable db → Reachable (bookSlot now u inp db).2
  | cancel (now rid : Nat) (role : Role) (inp : Option Nat) (db : DB) :
      Reachable db → Reachable (cancelBooking now rid role inp db).2
  | add (sa ea : Nat) (db : DB) :
      Reachable db → Reachable (addSlot sa ea db).2
  | remove (sid : Nat) (db : DB) :
      Reachable db → Reachable (removeSlot sid db).2

/-- Reachability restricted to runs in which `CancelBooking` is only
invoked on bookings whose current status is `confirmed` (the
`confirmed → cancelled` transition of the spec's state machine). -/
inductive ReachableR : DB → Prop
  | init : ReachableR emptyDB
  | book (now u : Nat) (inp : Option (Option Nat)) (db : DB) :
      ReachableR db → ReachableR (bookSlot now u inp db).2
  | cancel (now rid : Nat) (role : Role) (inp : Option Nat) (db : DB)
      (h : cancelTargetsConfirmedB db inp = true) :
      ReachableR db → ReachableR (cancelBooking now rid role inp db).2
  | add (sa ea : Nat) (db : DB) :
      ReachableR db → ReachableR (addSlot sa ea db).2
  | remove (sid : Nat) (db : DB) :
      ReachableR db → ReachableR (removeSlot sid db).2

/-- The inductive strengthening of the cache invariant: per-slot
confirmed-booking counts match `isBooked`, bookings only reference
already-allocated slot ids, booking keys are below the fresh-id counter
and distinct. -/
structure WF (db : DB) : Prop where
  count : ∀ sid s, findById sid db.slots = some s →
    confirmedCountL db.bookings sid = (if s.isBooked then 1 else 0)
  slotKeyLt : ∀ p ∈ db.slots, p.1 < db.nextSlotId
  refLt : ∀ p ∈ db.bookings, p.2.slotId < db.nextSlotId
  keyLt : ∀ p ∈ db.bookings, p.1 < db.nextBookingId
  keysNodup : (db.bookings.map Prod.fst).Nodup

/-! ## Concrete states used by the settled claims -/

/-- A store with a single free future slot, two registered patients
about to race for it. -/
def raceDB : DB := ⟨[(0, ⟨100, 130, false⟩)], [], 1, 0⟩

/-- A store state in which slot 0 already has a committed `confirmed`
booking (user 1) while its denormalized `isBooked` flag is `false` —
the configuration the double-cancel run of the invariant claim reaches. -/
def c2db : DB := ⟨[(0, ⟨100, 130, false⟩)], [(0, ⟨1, 0, .confirmed⟩)], 1, 1⟩

/-- The store after `Booking.create(user 2, slot 0)` succeeds on
`c2db`: two committed `confirmed` bookings for slot 0. -/
def c2dbAfter : DB :=
  ⟨[(0, ⟨100, 130, true⟩)],
   [(1, ⟨2, 0, .confirmed⟩), (0, ⟨1, 0, .confirmed⟩)], 1, 2⟩

/-- Overlap-rule scenario: user 7 holds a confirmed booking for slot 0
`[540, 570)` (09:00-09:30 in minutes-of-day at scale 1); slot 1
`[570, 600)` (09:30-10:00) merely touches it and is free. -/
def c4db : DB :=
  ⟨[(0, ⟨540, 570, true⟩), (1, ⟨570, 600, false⟩)],
   [(0, ⟨7, 0, .confirmed⟩)], 2, 1⟩

/-- The sequential run that breaks the cache invariant: add a slot, book
it as user 1, cancel, rebook as user 2, then cancel user 1's
already-cancelled booking a second time.  The final state has slot 0
unbooked (`isBooked = false`) while user 2's `confirmed` booking still
references it. -/
def c6Chain : DB :=
  (cancelBooking 50 1 .patient (some 0)
    (bookSlot 50 2 (some (some 0))
      (cancelBooking 50 1 .patient (some 0)
        (bookSlot 50 1 (some (some 0))
          (addSlot 100 130 emptyDB).2).2).2).2).2

/-- A restricted-reachable state: slot added and booked by user 1. -/
def c6GoodDB : DB :=
  (cancelBooking 50 1 .patient (some 0)
    (bookSlot 50 1 (some (some 0)) (addSlot 100 130 emptyDB).2).2).2

/-- Cancel-without-precondition scenario: booking 0 (user 1) is
`completed` on slot 0 while booking 1 (user 2) is the slot's current
`confirmed` booking; the slot starts in the future. -/
def c10db : DB :=
  ⟨[(0, ⟨100, 130, true⟩)],
   [(0, ⟨1, 0, .completed⟩), (1, ⟨2, 0, .confirmed⟩)], 1, 2⟩

/-! ## Store lemmas -/

theorem findById_setBookedList (sid : Nat) (v : Bool) (l : List (Nat × Slot)) (id : Nat) :
    findById id (setBookedList sid v l) =
      if id = sid then (findById id l).map (fun s => { s with isBooked := v })
      else findById id l := by
  induction l with
  | nil => simp [setBookedList, findById]
  | cons p rest ih =>
      obtain ⟨k, s⟩ := p
      by_cases hki : k = id
      · subst hki
        by_cases hks : k = sid
        · subst hks; simp [setBookedList, findById]
        · simp [setBookedList, findById, hks]
      · by_cases hks : k = sid
        · subst hks
          have hid : ¬ id = k := fun h => hki h.symm
          simp [setBookedList, findById, hki, ih]
        · simp [setBookedList, findById, hki, hks, ih]

theorem findById_setStatusList (bid : Nat) (st : BStatus) (l : List (Nat × Booking)) (id : Nat) :
    findById id (setStatusList bid st l) =
      if id = bid then (findById id l).map (fun b => { b with status := st })
      else findById id l := by
  induction l with
  | nil => simp [setStatusList, findById]
  | cons p rest ih =>
      obtain ⟨k, b⟩ := p
      by_cases hki : k = id
      · subst hki
        by_cases hkb : k = bid
        · subst hkb; simp [setStatusList, findById]
        · simp [setStatusList, findById, hkb]
      · by_cases hkb : k = bid
        · subst hkb
          simp [setStatusList, findById, hki, ih]
        · simp [setStatusList, findById, hki, hkb, ih]

theorem findById_mem {id : Nat} {v : α} {l : List (Nat × α)}
    (h : findById id l = some v) : (id, v) ∈ l := by
  induction l with
  | nil => simp [findById] at h
  | cons p rest ih =>
      obtain ⟨k, w⟩ := p
      by_cases hk : k = id
      · subst hk
        simp [findById] at h
        subst h
        exact List.mem_cons_self _ _
      · simp [findById, hk] at h
        exact List.mem_cons_of_mem _ (ih h)

/-- Shape of a successful `bookSlot` run: the slot is present, free and
future, no overlap is found, and the pre-save hook re-check passes on
the same state, so the commit happens. -/
theorem bookSlot_success (now u sid : Nat) (slot : Slot) (db : DB)
    (hs : findById sid db.slots = some slot)
    (hnb : slot.isBooked = false)
    (hfut : ¬ slot.startAt < now)
    (hov : existsOverlappingBooking db u slot = false) :
    bookSlot now u (some (some sid)) db =
      (BookResult.booked db.nextBookingId,
       { db with
           slots := setBookedList sid true db.slots
           bookings := (db.nextBookingId, ⟨u, sid, BStatus.confirmed⟩) :: db.bookings
           nextBookingId := db.nextBookingId + 1 }) := by
  simp only [bookSlot, hs, hnb, if_neg hfut, hov, saveNewBooking, hookCommit]
  simp

/-- Shape of a successful `cancelBooking` run: booking present,
requester authorized, slot present and future; the booking is set to
`cancelled` and the slot's flag cleared, unconditionally on the
booking's previous status. -/
theorem cancelBooking_success (now rid : Nat) (role : Role) (bid : Nat) (b : Booking)
    (slot : Slot) (db : DB)
    (hb : findById bid db.bookings = some b)
    (hcond : ¬ (b.userId ≠ rid ∧ role ≠ Role.admin))
    (hs : findById b.slotId db.slots = some slot)
    (hfut : ¬ slot.startAt < now) :
    cancelBooking now rid role (some bid) db =
      (CancelResult.cancelled,
       { db with
           bookings := setStatusList bid BStatus.cancelled db.bookings
           slots := setBookedList b.slotId false db.slots }) := by
  simp only [cancelBooking, hb, hs, if_neg hcond, if_neg hfut]

/-- The overlap query, phrased as the quantifier the spec states: a
confirmed booking of this user whose stored slot's half-open window
intersects the candidate's. -/
theorem existsOverlappingBooking_iff (db : DB) (u : Nat) (slot : Slot) :
    existsOverlappingBooking db u slot = true ↔
      ∃ bid b s2, (bid, b) ∈ db.bookings ∧ b.userId = u ∧
        b.status = BStatus.confirmed ∧ (b.slotId, s2) ∈ db.slots ∧
        s2.startAt < slot.endAt ∧ slot.startAt < s2.endAt := by
  simp only [existsOverlappingBooking, List.any_eq_true, Bool.and_eq_true, beq_iff_eq,
    decide_eq_true_eq, slotsOverlapQuery, List.contains_iff_exists_mem_beq,
    List.mem_map, List.mem_filter, Prod.exists]
  constructor
  · rintro ⟨bid, b, hmem, ⟨hu, hst⟩, a2, ⟨⟨k, s2, ⟨hm2, h1, h2⟩, rfl⟩, hsl⟩⟩
    exact ⟨bid, b, s2, hmem, hu, hst, by rw [hsl]; exact hm2, h1, h2⟩
  · rintro ⟨bid, b, s2, hmem, hu, hst, hm2, h1, h2⟩
    exact ⟨bid, b, hmem, ⟨hu, hst⟩, b.slotId, ⟨b.slotId, s2, ⟨hm2, h1, h2⟩, rfl⟩, rfl⟩

/-! ## C1 -/

/-- **C1.** The interleaving the time-of-check/time-of-use race allows:
request A (user 1) runs `bookSlot` up to and including the pre-save
hook's `Slot.findById` read, observing `isBooked = false`
(`preSaveCheck`); request B (user 2) then runs its entire `bookSlot` to
completion and succeeds; request A resumes after its already-passed
check, whose remaining effects (`slot.save()` with `isBooked = true`,
then the booking insert) are unconditional (`hookCommit`).  Both
requests succeed and the store ends with **two** `confirmed` bookings
for slot 0: no storage-level uniqueness constraint exists in
`bookingSchema` to arbitrate the race (the controller's
`error.code === 11000` handler is dead code), contradicting the claim
that exactly one attempt succeeds and every other observes
`SlotAlreadyBooked`. -/
theorem c1_concurrent_bookings_both_succeed :
    preSaveCheck raceDB 0 = true ∧
    (bookSlot 50 2 (some (some 0)) raceDB).1 = BookResult.booked 0 ∧
    (hookCommit (bookSlot 50 2 (some (some 0)) raceDB).2 1 0).1 = 1 ∧
    confirmedCountL
      (hookCommit (bookSlot 50 2 (some (some 0)) raceDB).2 1 0).2.bookings 0 = 2 := by
  decide

/-! ## C2 -/

/-- **C2.** The Booking store does not reject a second `confirmed`
booking independently of the `isBooked` pre-check: in `c2db` slot 0
already has a committed `confirmed` booking, yet — because the pre-save
hook consults only the denormalized `isBooked` flag, and `bookingSchema`
declares no uniqueness constraint on `(slotId, status)` — the insert of
a second `confirmed` booking for the same slot is accepted, leaving two
committed `confirmed` bookings. -/
theorem c2_store_accepts_second_confirmed :
    confirmedCountL c2db.bookings 0 = 1 ∧
    saveNewBooking c2db 2 0 = Except.ok (1, c2dbAfter) ∧
    confirmedCountL c2dbAfter.bookings 0 = 2 :=
  ⟨rfl, rfl, rfl⟩

/-! ## C3 -/

/-- **C3.** For a malformed (non-ObjectId) `slotId`, `bookSlot` does not
fail with `InvalidSlotId` — no such response exists anywhere in the
controller, because `validationResult` is never consulted.  Instead the
`CastError` thrown by `Slot.findById` reaches the `catch` block and the
caller receives the generic 500 `BOOKING_ERROR`; the stores are left
unchanged. -/
theorem c3_malformed_slot_id_gives_generic_500 (now userId : Nat) (db : DB) :
    bookSlot now userId (some none) db = (BookResult.bookingError, db) :=
  rfl

/-! ## C10 -/

/-- **C10.** `cancelBooking` imposes no precondition on the booking's
current status: invoked on an already-`cancelled` or `completed` booking
whose slot starts in the future, by its owner or an admin, it succeeds,
reports the booking as cancelled, and resets the referenced slot's
`isBooked` flag to `false` — whatever other bookings (including another
user's `confirmed` one) reference that slot. -/
theorem c10_cancel_has_no_status_precondition
    (now rid bid : Nat) (role : Role) (b : Booking) (slot : Slot) (db : DB)
    (hb : findById bid db.bookings = some b)
    (_hst : b.status = BStatus.cancelled ∨ b.status = BStatus.completed)
    (hauth : rid = b.userId ∨ role = Role.admin)
    (hs : findById b.slotId db.slots = some slot)
    (hfut : ¬ slot.startAt < now) :
    (cancelBooking now rid role (some bid) db).1 = CancelResult.cancelled ∧
    findById b.slotId (cancelBooking now rid role (some bid) db).2.slots
      = some { slot with isBooked := false } := by
  have hcond : ¬ (b.userId ≠ rid ∧ role ≠ Role.admin) := by
    rcases hauth with h | h
    · exact fun hc => hc.1 h.symm
    · exact fun hc => hc.2 h
  constructor
  · simp only [cancelBooking, hb, hs, if_neg hcond, if_neg hfut]
  · simp only [cancelBooking, hb, hs, if_neg hcond, if_neg hfut]
    rw [findById_setBookedList]
    simp [hs]

/-- Witness for C10 on `c10db`: user 1 cancels their `completed` booking
0 even though user 2's `confirmed` booking 1 currently holds slot 0, and
the slot is reported free afterwards. -/
theorem c10_cancel_has_no_status_precondition_witness :
    (cancelBooking 50 1 Role.patient (some 0) c10db).1 = CancelResult.cancelled ∧
    findById 0 (cancelBooking 50 1 Role.patient (some 0) c10db).2.slots
      = some ⟨100, 130, false⟩ :=
  c10_cancel_has_no_status_precondition 50 1 0 Role.patient ⟨1, 0, .completed⟩
    ⟨100, 130, true⟩ c10db rfl (Or.inr rfl) (Or.inl rfl) rfl (by decide)

/-! ## C4 -/

/-- **C4.** For a candidate slot that has passed the earlier checks of
`bookSlot` (present, not flagged booked, not in the past), the operation
fails with `OverlappingBooking` iff the user holds a `confirmed` booking
whose stored slot's half-open `[startAt, endAt)` window intersects the
candidate's, intersection being `a.start < b.end ∧ b.start < a.end`.  In
particular a candidate that merely touches an existing confirmed
booking's window at an endpoint is not rejected for overlap. -/
theorem c4_overlap_rule (now u sid : Nat) (slot : Slot) (db : DB)
    (hs : findById sid db.slots = some slot)
    (hnb : slot.isBooked = false)
    (hfut : ¬ slot.startAt < now) :
    ((bookSlot now u (some (some sid)) db).1 = BookResult.overlappingBooking ↔
      ∃ bid b s2, (bid, b) ∈ db.bookings ∧ b.userId = u ∧
        b.status = BStatus.confirmed ∧ (b.slotId, s2) ∈ db.slots ∧
        s2.startAt < slot.endAt ∧ slot.startAt < s2.endAt) := by
  rw [← existsOverlappingBooking_iff]
  simp only [bookSlot, hs, hnb, if_neg hfut]
  by_cases hov : existsOverlappingBooking db u slot
  · simp [hov]
  · simp only [Bool.not_eq_true] at hov
    simp [hov, saveNewBooking, hs, hnb]

/-- Witness for C4 on `c4db`: user 7 holds `[540, 570)` confirmed; the
touching candidate slot 1 `[570, 600)` satisfies neither side of the
equivalence (no strict intersection, and the request is not rejected for
overlap — it succeeds). -/
theorem c4_overlap_rule_witness :
    ((bookSlot 0 7 (some (some 1)) c4db).1 = BookResult.overlappingBooking ↔
      ∃ bid b s2, (bid, b) ∈ c4db.bookings ∧ b.userId = 7 ∧
        b.status = BStatus.confirmed ∧ (b.slotId, s2) ∈ c4db.slots ∧
        s2.startAt < 600 ∧ 570 < s2.endAt) :=
  c4_overlap_rule 0 7 1 ⟨570, 600, false⟩ c4db rfl rfl (by decide)

/-! ## C5 -/

/-- **C5.** The round trip: a successful `BookSlot(U1, S)` yields the
fresh booking id; cancelling that booking (by its owner, before the slot
starts) succeeds and restores `S.isBooked = false` in the store; a
subsequent `BookSlot(U2, S)` by another user with no overlapping
confirmed bookings, while `S.startAt` is still in the future, succeeds
with the next fresh booking id. -/
theorem c5_roundtrip
    (db : DB) (now1 now2 now3 u1 u2 sid : Nat) (slot : Slot) (role : Role)
    (hs : findById sid db.slots = some slot)
    (hnb : slot.isBooked = false)
    (hfut1 : ¬ slot.startAt < now1)
    (hov1 : existsOverlappingBooking db u1 slot = false)
    (hfut2 : ¬ slot.startAt < now2)
    (hfut3 : ¬ slot.startAt < now3)
    (hov2 : existsOverlappingBooking
        (cancelBooking now2 u1 role (some db.nextBookingId)
          (bookSlot now1 u1 (some (some sid)) db).2).2 u2
        { slot with isBooked := false } = false) :
    (bookSlot now1 u1 (some (some sid)) db).1 = BookResult.booked db.nextBookingId ∧
    (cancelBooking now2 u1 role (some db.nextBookingId)
        (bookSlot now1 u1 (some (some sid)) db).2).1 = CancelResult.cancelled ∧
    findById sid (cancelBooking now2 u1 role (some db.nextBookingId)
        (bookSlot now1 u1 (some (some sid)) db).2).2.slots
      = some { slot with isBooked := false } ∧
    (bookSlot now3 u2 (some (some sid))
        (cancelBooking now2 u1 role (some db.nextBookingId)
          (bookSlot now1 u1 (some (some sid)) db).2).2).1
      = BookResult.booked (db.nextBookingId + 1) := by
  have hbook := bookSlot_success now1 u1 sid slot db hs hnb hfut1 hov1
  have hslot1 : findById sid (setBookedList sid true db.slots)
      = some { slot with isBooked := true } := by
    rw [findById_setBookedList]
    simp [hs]
  have hcancel := cancelBooking_success now2 u1 role db.nextBookingId
      ⟨u1, sid, BStatus.confirmed⟩ { slot with isBooked := true }
      ({ db with
           slots := setBookedList sid true db.slots
           bookings := (db.nextBookingId, ⟨u1, sid, BStatus.confirmed⟩) :: db.bookings
           nextBookingId := db.nextBookingId + 1 } : DB)
      (by simp [findById]) (fun hc => hc.1 rfl) hslot1 hfut2
  have hslot2 : findById sid (setBookedList sid false (setBookedList sid true db.slots))
      = some { slot with isBooked := false } := by
    rw [findById_setBookedList, findById_setBookedList]
    simp [hs]
  simp only [hbook] at hov2 ⊢
  simp only [hcancel] at hov2 ⊢
  refine ⟨trivial, trivial, hslot2, ?_⟩
  rw [bookSlot_success now3 u2 sid { slot with isBooked := false } _ hslot2 rfl hfut3 hov2]

/-- Witness for C5: user 1 books the single slot of the state
`(addSlot 100 130 emptyDB).2`, cancels, and user 2 rebooks. -/
theorem c5_roundtrip_witness :
    (bookSlot 50 1 (some (some 0)) (addSlot 100 130 emptyDB).2).1
        = BookResult.booked 0 ∧
    (cancelBooking 50 1 Role.patient (some 0)
        (bookSlot 50 1 (some (some 0)) (addSlot 100 130 emptyDB).2).2).1
        = CancelResult.cancelled ∧
    findById 0 (cancelBooking 50 1 Role.patient (some 0)
        (bookSlot 50 1 (some (some 0)) (addSlot 100 130 emptyDB).2).2).2.slots
      = some ⟨100, 130, false⟩ ∧
    (bookSlot 50 2 (some (some 0))
        (cancelBooking 50 1 Role.patient (some 0)
          (bookSlot 50 1 (some (some 0)) (addSlot 100 130 emptyDB).2).2).2).1
      = BookResult.booked 1 :=
  c5_roundtrip (addSlot 100 130 emptyDB).2 50 50 50 1 2 0 ⟨100, 130, false⟩
    Role.patient rfl rfl (by decide) rfl (by decide) (by decide) rfl

/-! ## Counting and update lemmas for the cache invariant -/

theorem confirmedCountL_cons (k : Nat) (b : Booking) (bs : List (Nat × Booking)) (sid : Nat) :
    confirmedCountL ((k, b) :: bs) sid =
      confirmedCountL bs sid +
        (if b.slotId = sid ∧ b.status = BStatus.confirmed then 1 else 0) := by
  simp [confirmedCountL, List.countP_cons, Bool.and_eq_true, beq_iff_eq]

theorem confirmedCountL_pos_of_mem {bid : Nat} {b : Booking} {bs : List (Nat × Booking)}
    {sid : Nat} (hmem : (bid, b) ∈ bs) (hsl : b.slotId = sid)
    (hst : b.status = BStatus.confirmed) : 0 < confirmedCountL bs sid := by
  rw [confirmedCountL, List.countP_pos_iff]
  exact ⟨(bid, b), hmem, by simp [hsl, hst]⟩

theorem confirmedCountL_eq_zero {bs : List (Nat × Booking)} {sid : Nat}
    (h : ∀ p ∈ bs, p.2.slotId ≠ sid) : confirmedCountL bs sid = 0 := by
  rw [confirmedCountL, List.countP_eq_zero]
  intro p hp
  simp [h p hp]

theorem setStatusList_eq_map (bid : Nat) (st : BStatus) (bs : List (Nat × Booking)) :
    setStatusList bid st bs =
      bs.map fun q => (q.1, if q.1 = bid then { q.2 with status := st } else q.2) := by
  induction bs with
  | nil => rfl
  | cons p rest ih => obtain ⟨k, b⟩ := p; simp [setStatusList, ih]

theorem setBookedList_eq_map (sid : Nat) (v : Bool) (l : List (Nat × Slot)) :
    setBookedList sid v l =
      l.map fun q => (q.1, if q.1 = sid then { q.2 with isBooked := v } else q.2) := by
  induction l with
  | nil => rfl
  | cons p rest ih => obtain ⟨k, s⟩ := p; simp [setBookedList, ih]

theorem setStatusList_keys (bid : Nat) (st : BStatus) (bs : List (Nat × Booking)) :
    (setStatusList bid st bs).map Prod.fst = bs.map Prod.fst := by
  simp [setStatusList_eq_map, Function.comp]

theorem setBookedList_keys (sid : Nat) (v : Bool) (l : List (Nat × Slot)) :
    (setBookedList sid v l).map Prod.fst = l.map Prod.fst := by
  simp [setBookedList_eq_map, Function.comp]

theorem setStatusList_eq_of_forall_ne (bid : Nat) (st : BStatus)
    {bs : List (Nat × Booking)} (h : ∀ p ∈ bs, p.1 ≠ bid) :
    setStatusList bid st bs = bs := by
  induction bs with
  | nil => rfl
  | cons p rest ih =>
      obtain ⟨k, b⟩ := p
      have hk : k ≠ bid := h (k, b) (List.mem_cons_self _ _)
      simp only [setStatusList, if_neg hk]
      rw [ih fun q hq => h q (List.mem_cons_of_mem _ hq)]

/-- Setting booking `bid` (present, with distinct keys) to `cancelled`
removes exactly its own contribution from every per-slot confirmed
count. -/
theorem confirmedCountL_setStatus_cancelled {bs : List (Nat × Booking)}
    {bid : Nat} {b : Booking} (sid : Nat)
    (hnd : (bs.map Prod.fst).Nodup) (hf : findById bid bs = some b) :
    confirmedCountL bs sid =
      confirmedCountL (setStatusList bid BStatus.cancelled bs) sid +
        (if b.slotId = sid ∧ b.status = BStatus.confirmed then 1 else 0) := by
  induction bs with
  | nil => simp [findById] at hf
  | cons p rest ih =>
      obtain ⟨k, c⟩ := p
      rw [List.map_cons, List.nodup_cons] at hnd
      by_cases hk : k = bid
      · subst hk
        have hcb : c = b := by
          simpa [findById] using hf
        subst hcb
        have hrest : setStatusList k BStatus.cancelled rest = rest := by
          refine setStatusList_eq_of_forall_ne _ _ fun q hq hq1 => hnd.1 ?_
          exact List.mem_map.mpr ⟨q, hq, hq1⟩
        simp [setStatusList, hrest, confirmedCountL_cons]
      · have hftail : findById bid rest = some b := by
          simpa [findById, hk] using hf
        simp only [setStatusList, if_neg hk, confirmedCountL_cons]
        rw [ih hnd.2 hftail]
        omega

theorem findById_filter_ne {l : List (Nat × α)} {sid id : Nat} (h : id ≠ sid) :
    findById id (l.filter fun p => p.1 != sid) = findById id l := by
  induction l with
  | nil => rfl
  | cons p rest ih =>
      obtain ⟨k, v⟩ := p
      by_cases hk : k = sid
      · subst hk
        have hki : ¬ k = id := fun hki => h hki.symm
        simp [findById, List.filter_cons, hki, ih]
      · by_cases hki : k = id <;> simp [findById, List.filter_cons, hk, hki, ih, h]

theorem findById_filter_self (l : List (Nat × α)) (sid : Nat) :
    findById sid (l.filter fun p => p.1 != sid) = none := by
  induction l with
  | nil => rfl
  | cons p rest ih =>
      obtain ⟨k, v⟩ := p
      by_cases hk : k = sid <;> simp [findById, hk, ih]

/-! ## Preservation of the strengthened invariant -/

theorem wf_empty : WF emptyDB := by
  refine ⟨?_, ?_, ?_, ?_, ?_⟩ <;> simp [emptyDB, findById]

theorem wf_hookCommit {db : DB} (u sid : Nat) (slot : Slot) (hwf : WF db)
    (hs : findById sid db.slots = some slot) (hnb : slot.isBooked = false) :
    WF (hookCommit db u sid).2 := by
  obtain ⟨hcount, hslotKey, href, hkey, hnd⟩ := hwf
  have hsidLt : sid < db.nextSlotId := hslotKey (sid, slot) (findById_mem hs)
  refine ⟨?_, ?_, ?_, ?_, ?_⟩
  · intro sid2 s2 h2
    simp only [hookCommit] at h2 ⊢
    rw [findById_setBookedList] at h2
    rw [confirmedCountL_cons]
    by_cases hss : sid2 = sid
    · subst hss
      rw [if_pos rfl, hs] at h2
      obtain rfl : ({ slot with isBooked := true } : Slot) = s2 := by
        simpa using h2
      rw [hcount sid2 slot hs, hnb]
      simp
    · rw [if_neg hss] at h2
      rw [hcount sid2 s2 h2]
      have : ¬ (sid = sid2) := fun hc => hss hc.symm
      simp [this]
  · intro p hp
    simp only [hookCommit] at hp ⊢
    rw [setBookedList_eq_map] at hp
    obtain ⟨q, hq, hqe⟩ := List.mem_map.mp hp
    have hpq : p.1 = q.1 := by rw [← hqe]
    have := hslotKey q hq
    omega
  · intro p hp
    simp only [hookCommit] at hp ⊢
    rcases List.mem_cons.mp hp with h | h
    · subst h; exact hsidLt
    · exact href p h
  · intro p hp
    simp only [hookCommit] at hp ⊢
    rcases List.mem_cons.mp hp with h | h
    · subst h; omega
    · have := hkey p h; omega
  · simp only [hookCommit, List.map_cons]
    rw [List.nodup_cons]
    refine ⟨fun hc => ?_, hnd⟩
    obtain ⟨q, hq, hqe⟩ := List.mem_map.mp hc
    have := hkey q hq
    omega

theorem wf_bookSlot (now u : Nat) (inp : Option (Option Nat)) (db : DB)
    (hwf : WF db) : WF (bookSlot now u inp db).2 := by
  match inp with
  | none => exact hwf
  | some none => exact hwf
  | some (some sid) =>
      simp only [bookSlot]
      cases hfind : findById sid db.slots with
      | none => exact hwf
      | some slot =>
          by_cases hb : slot.isBooked
          · simp [hb]; exact hwf
          · rw [Bool.not_eq_true] at hb
            by_cases hp : slot.startAt < now
            · simp [hb, hp]; exact hwf
            · by_cases hov : existsOverlappingBooking db u slot
              · simp [hb, hp, hov]; exact hwf
              · simp only [Bool.not_eq_true] at hov
                simp only [hb, hp, hov, saveNewBooking, hfind, Bool.false_eq_true,
                  if_false, ite_false]
                exact wf_hookCommit u sid slot hwf hfind hb

theorem wf_cancelBooking (now rid : Nat) (role : Role) (inp : Option Nat) (db : DB)
    (hc : cancelTargetsConfirmedB db inp = true) (hwf : WF db) :
    WF (cancelBooking now rid role inp db).2 := by
  match inp with
  | none => exact hwf
  | some bid =>
      simp only [cancelBooking]
      cases hfind : findById bid db.bookings with
      | none => exact hwf
      | some b =>
          have hconf : b.status = BStatus.confirmed := by
            simpa [cancelTargetsConfirmedB, hfind] using hc
          by_cases hauth : b.userId ≠ rid ∧ role ≠ Role.admin
          · simp [hauth]; exact hwf
          · simp only [if_neg hauth]
            cases hslot : findById b.slotId db.slots with
            | none => exact hwf
            | some slot =>
                by_cases hp : slot.startAt < now
                · simp [hp]; exact hwf
                · simp only [hp, if_false, hslot, ite_false]
                  obtain ⟨hcount, hslotKey, href, hkey, hnd⟩ := hwf
                  have hmem := findById_mem hfind
                  have hpos : 0 < confirmedCountL db.bookings b.slotId :=
                    confirmedCountL_pos_of_mem hmem rfl hconf
                  have hcnt := hcount b.slotId slot hslot
                  have hib : slot.isBooked = true := by
                    cases hibv : slot.isBooked
                    · rw [hibv] at hcnt; simp at hcnt; omega
                    · rfl
                  have hone : confirmedCountL db.bookings b.slotId = 1 := by
                    rw [hcnt, hib]; simp
                  refine ⟨?_, ?_, ?_, ?_, ?_⟩
                  · show ∀ sid2 s2, findById sid2 (setBookedList b.slotId false db.slots)
                        = some s2 →
                      confirmedCountL (setStatusList bid BStatus.cancelled db.bookings) sid2
                        = if s2.isBooked then 1 else 0
                    intro sid2 s2 h2
                    rw [findById_setBookedList] at h2
                    by_cases hss : sid2 = b.slotId
                    · subst hss
                      rw [if_pos rfl, hslot] at h2
                      obtain rfl : ({ slot with isBooked := false } : Slot) = s2 := by
                        simpa using h2
                      have hset := confirmedCountL_setStatus_cancelled b.slotId hnd hfind
                      rw [if_pos ⟨rfl, hconf⟩] at hset
                      show confirmedCountL (setStatusList bid BStatus.cancelled db.bookings)
                          b.slotId = 0
                      omega
                    · rw [if_neg hss] at h2
                      have hset := confirmedCountL_setStatus_cancelled sid2 hnd hfind
                      have hne : ¬ (b.slotId = sid2 ∧ b.status = BStatus.confirmed) :=
                        fun hx => hss hx.1.symm
                      rw [if_neg hne] at hset
                      have heq : confirmedCountL (setStatusList bid BStatus.cancelled db.bookings)
                          sid2 = confirmedCountL db.bookings sid2 := by omega
                      rw [heq]
                      exact hcount sid2 s2 h2
                  · show ∀ p ∈ setBookedList b.slotId false db.slots, p.1 < db.nextSlotId
                    intro p hp2
                    rw [setBookedList_eq_map] at hp2
                    obtain ⟨q, hq, hqe⟩ := List.mem_map.mp hp2
                    have hpq : p.1 = q.1 := by rw [← hqe]
                    have := hslotKey q hq
                    omega
                  · show ∀ p ∈ setStatusList bid BStatus.cancelled db.bookings,
                      p.2.slotId < db.nextSlotId
                    intro p hp2
                    rw [setStatusList_eq_map] at hp2
                    obtain ⟨q, hq, hqe⟩ := List.mem_map.mp hp2
                    have hql : p.2.slotId = q.2.slotId := by
                      rw [← hqe]
                      by_cases hqb : q.1 = bid <;> simp [hqb]
                    rw [hql]
                    exact href q hq
                  · show ∀ p ∈ setStatusList bid BStatus.cancelled db.bookings,
                      p.1 < db.nextBookingId
                    intro p hp2
                    rw [setStatusList_eq_map] at hp2
                    obtain ⟨q, hq, hqe⟩ := List.mem_map.mp hp2
                    have hpq : p.1 = q.1 := by rw [← hqe]
                    rw [hpq]
                    exact hkey q hq
                  · show ((setStatusList bid BStatus.cancelled db.bookings).map Prod.fst).Nodup
                    rw [setStatusList_keys]
                    exact hnd

theorem wf_addSlot (sa ea : Nat) (db : DB) (hwf : WF db) : WF (addSlot sa ea db).2 := by
  simp only [addSlot]
  by_cases h1 : sa ≥ ea
  · simp [h1]; exact hwf
  · rw [if_neg h1]
    by_cases h2 : db.slots.any (fun p => p.2.startAt == sa && p.2.endAt == ea)
    · simp [h2]; exact hwf
    · simp only [Bool.not_eq_true] at h2
      simp only [h2, Bool.false_eq_true, if_false, ite_false]
      obtain ⟨hcount, hslotKey, href, hkey, hnd⟩ := hwf
      refine ⟨?_, ?_, ?_, ?_, ?_⟩
      · intro sid2 s2 hfind
        by_cases hss : db.nextSlotId = sid2
        · subst hss
          simp only [findById, if_pos rfl] at hfind
          obtain rfl : (⟨sa, ea, false⟩ : Slot) = s2 := by simpa using hfind
          have : confirmedCountL db.bookings db.nextSlotId = 0 :=
            confirmedCountL_eq_zero fun p hp => Nat.ne_of_lt (href p hp)
          simp [this]
        · simp only [findById, if_neg hss] at hfind
          exact hcount sid2 s2 hfind
      · intro p hp
        rcases List.mem_cons.mp hp with h | h
        · subst h; simp
        · have := hslotKey p h; simp; omega
      · intro p hp
        have := href p hp; simp; omega
      · exact hkey
      · exact hnd

theorem wf_removeSlot (sid : Nat) (db : DB) (hwf : WF db) : WF (removeSlot sid db).2 := by
  simp only [removeSlot]
  cases hfind : findById sid db.slots with
  | none => exact hwf
  | some s =>
      by_cases hb : s.isBooked
      · simp [hb]; exact hwf
      · rw [Bool.not_eq_true] at hb
        simp only [hb, Bool.false_eq_true, if_false, ite_false]
        obtain ⟨hcount, hslotKey, href, hkey, hnd⟩ := hwf
        refine ⟨?_, ?_, ?_, ?_, ?_⟩
        · intro sid2 s2 h2
          by_cases hss : sid2 = sid
          · subst hss
            rw [findById_filter_self] at h2
            exact absurd h2 (by simp)
          · rw [findById_filter_ne hss] at h2
            exact hcount sid2 s2 h2
        · intro p hp
          exact hslotKey p (List.mem_of_mem_filter hp)
        · exact href
        · exact hkey
        · exact hnd

/-- Every state reachable with cancels restricted to `confirmed`
bookings satisfies the strengthened invariant. -/
theorem wf_reachableR : ∀ db, ReachableR db → WF db := by
  intro db h
  induction h with
  | init => exact wf_empty
  | book now u inp db _ ih => exact wf_bookSlot now u inp db ih
  | cancel now rid role inp db hc _ ih => exact wf_cancelBooking now rid role inp db hc ih
  | add sa ea db _ ih => exact wf_addSlot sa ea db ih
  | remove sid db _ ih => exact wf_removeSlot sid db ih

/-! ## State-shape case analyses for the core operations -/

/-- `bookSlot` either leaves the store unchanged (any failure) or
commits exactly one fresh `confirmed` booking and flips one slot flag. -/
theorem bookSlot_state_cases (now u : Nat) (inp : Option (Option Nat)) (db : DB) :
    (bookSlot now u inp db).2 = db ∨
    ∃ sid bid2, (bookSlot now u inp db).2 =
      { db with
          slots := setBookedList sid true db.slots
          bookings := (bid2, ⟨u, sid, BStatus.confirmed⟩) :: db.bookings
          nextBookingId := bid2 + 1 } := by
  match inp with
  | none => exact Or.inl rfl
  | some none => exact Or.inl rfl
  | some (some sid) =>
      simp only [bookSlot]
      cases hfind : findById sid db.slots with
      | none => exact Or.inl rfl
      | some slot =>
          by_cases hb : slot.isBooked
          · simp [hb]
          · rw [Bool.not_eq_true] at hb
            by_cases hp : slot.startAt < now
            · simp [hb, hp]
            · by_cases hov : existsOverlappingBooking db u slot
              · simp [hb, hp, hov]
              · simp only [Bool.not_eq_true] at hov
                simp only [hb, hp, hov, saveNewBooking, hfind, Bool.false_eq_true,
                  if_false, ite_false]
                exact Or.inr ⟨sid, db.nextBookingId, rfl⟩

/-- `cancelBooking` either leaves the store unchanged or sets one
booking's status to `cancelled` and one slot's flag to `false`. -/
theorem cancelBooking_state_cases (now rid : Nat) (role : Role) (inp : Option Nat)
    (db : DB) :
    (cancelBooking now rid role inp db).2 = db ∨
    ∃ bid2 tsid, (cancelBooking now rid role inp db).2 =
      { db with
          bookings := setStatusList bid2 BStatus.cancelled db.bookings
          slots := setBookedList tsid false db.slots } := by
  match inp with
  | none => exact Or.inl rfl
  | some bid =>
      simp only [cancelBooking]
      cases hfind : findById bid db.bookings with
      | none => exact Or.inl rfl
      | some b =>
          by_cases hauth : b.userId ≠ rid ∧ role ≠ Role.admin
          · simp [hauth]
          · simp only [if_neg hauth]
            cases hslot : findById b.slotId db.slots with
            | none => exact Or.inl rfl
            | some slot =>
                by_cases hp : slot.startAt < now
                · simp [hp]
                · simp only [hp, if_false, hslot, ite_false]
                  exact Or.inr ⟨bid, b.slotId, rfl⟩

/-- `addSlot` either leaves the store unchanged or prepends one fresh
unbooked slot; it never touches the bookings. -/
theorem addSlot_state_cases (sa ea : Nat) (db : DB) :
    (addSlot sa ea db).2 = db ∨
    ∃ sid, (addSlot sa ea db).2 =
      { db with slots := (sid, ⟨sa, ea, false⟩) :: db.slots, nextSlotId := sid + 1 } := by
  simp only [addSlot]
  by_cases h1 : sa ≥ ea
  · simp [h1]
  · rw [if_neg h1]
    by_cases h2 : db.slots.any (fun p => p.2.startAt == sa && p.2.endAt == ea)
    · simp [h2]
    · simp only [Bool.not_eq_true] at h2
      simp only [h2, Bool.false_eq_true, if_false, ite_false]
      exact Or.inr ⟨db.nextSlotId, rfl⟩

/-- `removeSlot` either leaves the store unchanged or filters one slot
out; it never touches the bookings. -/
theorem removeSlot_state_cases (sid : Nat) (db : DB) :
    (removeSlot sid db).2 = db ∨
    (removeSlot sid db).2 = { db with slots := db.slots.filter fun p => p.1 != sid } := by
  simp only [removeSlot]
  cases hfind : findById sid db.slots with
  | none => exact Or.inl rfl
  | some s =>
      by_cases hb : s.isBooked
      · simp [hb]
      · rw [Bool.not_eq_true] at hb
        simp only [hb, Bool.false_eq_true, if_false, ite_false]
        exact Or.inr trivial

/-! ## C6 -/

/-- **C6 counterexample.** The claim quantifies over every state
reachable by the core operations, but `c6Chain` — a purely sequential
run of add/book/cancel/book followed by a second cancel of the
already-cancelled booking — is reachable and violates the invariant:
slot 0 ends with `isBooked = false` while exactly one `confirmed`
booking (user 2's) still references it. -/
theorem c6_invariant_fails_on_reachable_state :
    Reachable c6Chain ∧ ¬ SlotInvariant c6Chain :=
  ⟨Reachable.cancel 50 1 .patient (some 0) _
      (Reachable.book 50 2 (some (some 0)) _
        (Reachable.cancel 50 1 .patient (some 0) _
          (Reachable.book 50 1 (some (some 0)) _
            (Reachable.add 100 130 _ Reachable.init)))),
   fun h => absurd ((h 0 ⟨100, 130, false⟩ (by decide)).mpr (by decide)) (by decide)⟩

/-- **C6 (amended).** In every state reachable by the core operations in
which `CancelBooking` is only ever invoked on bookings whose status is
still `confirmed`, a slot's `isBooked` flag is `true` iff exactly one
`confirmed` Booking references that slot.  (The unrestricted claim fails
because `cancelBooking` checks no status: re-cancelling an
already-cancelled booking clears the flag of a slot that another user's
confirmed booking meanwhile holds.) -/
theorem c6_invariant_holds_with_confirmed_only_cancels
    (db : DB) (h : ReachableR db) : SlotInvariant db := by
  have hwf := wf_reachableR db h
  intro sid s hfind
  have hc := hwf.count sid s hfind
  cases hib : s.isBooked
  · rw [hib] at hc
    simp at hc
    simp [hc]
  · rw [hib] at hc
    simp at hc
    simp [hc]

/-- Witness for the amended C6 at the concrete restricted-reachable
state `c6GoodDB` (add, book by user 1, one cancel of the confirmed
booking). -/
theorem c6_invariant_holds_with_confirmed_only_cancels_witness :
    SlotInvariant c6GoodDB :=
  c6_invariant_holds_with_confirmed_only_cancels c6GoodDB
    (ReachableR.cancel 50 1 .patient (some 0) _ (by decide)
      (ReachableR.book 50 1 (some (some 0)) _
        (ReachableR.add 100 130 _ ReachableR.init)))

/-! ## C7 -/

/-- **C7 counterexample.** `completed` is not a terminal status: in
`c10db` booking 0 has status `completed`, its slot starts in the future,
and its owner's cancel request succeeds and rewrites the status to
`cancelled` — a transition out of `completed`. -/
theorem c7_completed_is_not_terminal :
    findById 0 c10db.bookings = some ⟨1, 0, BStatus.completed⟩ ∧
    (cancelBooking 50 1 Role.patient (some 0) c10db).1 = CancelResult.cancelled ∧
    findById 0 (cancelBooking 50 1 Role.patient (some 0) c10db).2.bookings
      = some ⟨1, 0, BStatus.cancelled⟩ := by
  decide

/-- **C7 (amended).** `cancelled` is terminal: an entry `(bid, b)` with
`b.status = cancelled` survives every core operation unchanged (in
particular re-cancelling rewrites the status to the same value).
Moreover no core operation writes any status other than the `confirmed`
of a freshly inserted booking and the `cancelled` written by
`cancelBooking`: `bookSlot` otherwise leaves booking entries intact,
`cancelBooking` either leaves an entry intact or sets its status to
`cancelled`, and the slot operations never touch the bookings — so
`confirmed → cancelled` via the cancel operation is the only
user-triggered transition, but `completed` is *not* terminal (the
counterexample cancels a completed booking). -/
theorem c7_cancelled_terminal_and_transitions
    (db : DB) (bid : Nat) (b : Booking)
    (hmem : (bid, b) ∈ db.bookings) (hc : b.status = BStatus.cancelled) :
    (∀ now u inp, (bid, b) ∈ (bookSlot now u inp db).2.bookings) ∧
    (∀ now rid role inp, (bid, b) ∈ (cancelBooking now rid role inp db).2.bookings) ∧
    (∀ sa ea, (addSlot sa ea db).2.bookings = db.bookings) ∧
    (∀ sid, (removeSlot sid db).2.bookings = db.bookings) ∧
    (∀ now u inp p, p ∈ (bookSlot now u inp db).2.bookings →
      p ∈ db.bookings ∨ p.2.status = BStatus.confirmed) ∧
    (∀ now rid role inp p, p ∈ (cancelBooking now rid role inp db).2.bookings →
      p ∈ db.bookings ∨
        ∃ q ∈ db.bookings, p.1 = q.1 ∧ p.2 = { q.2 with status := BStatus.cancelled }) := by
  have hself : ({ b with status := BStatus.cancelled } : Booking) = b := by
    cases b
    simp_all
  refine ⟨?_, ?_, ?_, ?_, ?_, ?_⟩
  · intro now u inp
    rcases bookSlot_state_cases now u inp db with h | ⟨sid, bid2, h⟩
    · rw [h]; exact hmem
    · rw [h]; exact List.mem_cons_of_mem _ hmem
  · intro now rid role inp
    rcases cancelBooking_state_cases now rid role inp db with h | ⟨bid2, tsid, h⟩
    · rw [h]; exact hmem
    · rw [h, setStatusList_eq_map]
      refine List.mem_map.mpr ⟨(bid, b), hmem, ?_⟩
      by_cases hb2 : bid = bid2 <;> simp [hb2, hself]
  · intro sa ea
    rcases addSlot_state_cases sa ea db with h | ⟨sid, h⟩ <;> rw [h]
  · intro sid
    rcases removeSlot_state_cases sid db with h | h <;> rw [h]
  · intro now u inp p hp
    rcases bookSlot_state_cases now u inp db with h | ⟨sid, bid2, h⟩
    · rw [h] at hp; exact Or.inl hp
    · rw [h] at hp
      rcases List.mem_cons.mp hp with h2 | h2
      · subst h2; exact Or.inr rfl
      · exact Or.inl h2
  · intro now rid role inp p hp
    rcases cancelBooking_state_cases now rid role inp db with h | ⟨bid2, tsid, h⟩
    · rw [h] at hp; exact Or.inl hp
    · rw [h, setStatusList_eq_map] at hp
      obtain ⟨q, hq, hqe⟩ := List.mem_map.mp hp
      by_cases hqb : q.1 = bid2
      · refine Or.inr ⟨q, hq, ?_, ?_⟩
        · rw [← hqe]
        · rw [← hqe]; simp [hqb]
      · refine Or.inl ?_
        rw [← hqe]
        simp only [hqb, if_false, ite_false]
        exact hq

/-- Witness for the amended C7: user 1's cancelled booking 0 in
`c6GoodDB` still reads `cancelled` after a further cancel request
targeting it. -/
theorem c7_cancelled_terminal_and_transitions_witness :
    (0, (⟨1, 0, BStatus.cancelled⟩ : Booking))
      ∈ (cancelBooking 60 1 Role.patient (some 0) c6GoodDB).2.bookings :=
  (c7_cancelled_terminal_and_transitions c6GoodDB 0 ⟨1, 0, BStatus.cancelled⟩
      (by decide) rfl).2.1 60 1 Role.patient (some 0)

/-! ## C8 -/

/-- The controller's `Math.ceil((toDate - fromDate) / 86400000)` in
closed form: expanding `to@23:59:59` and `from@00:00:00`, the quotient's
ceiling is `to - from + 1` for every pair of epoch days. -/
theorem jsDaysDiff_eq (f t : Nat) :
    jsCeilDiv (((t * msPerDay + 86399000 : Nat) : Int) - ((f * msPerDay : Nat) : Int))
        (msPerDay : Int) = (t : Int) - (f : Int) + 1 := by
  rw [jsCeilDiv, Int.fdiv_eq_ediv _ (by norm_num [msPerDay])]
  have hrw : (-(((t * msPerDay + 86399000 : Nat) : Int) - ((f * msPerDay : Nat) : Int)))
      = (-86399000) + ((f : Int) - (t : Int)) * ((msPerDay : Nat) : Int) := by
    push_cast [msPerDay]
    ring
  rw [hrw, Int.add_mul_ediv_right _ _ (by norm_num [msPerDay])]
  have hconst : ((-86399000 : Int)) / ((msPerDay : Nat) : Int) = -1 := by decide
  rw [hconst]
  ring

/-- **C8 counterexample.** A public listing for the pair
`(from, to) = (day 0, day 7)` — a range of exactly 7 days, which the
claim says must proceed — is rejected with `DateRangeTooLarge`: the code
computes `Math.ceil((to@23:59:59 − from@00:00) / 86400000) = 8 > 7`. -/
theorem c8_exact_seven_day_range_rejected :
    getAvailableSlots 0 (some (some 0)) (some (some 7)) false emptyDB
      = ListResult.dateRangeTooLarge := by
  decide

/-- **C8 (amended).** For valid dates with `from` not in the past, the
patient-facing listing fails with `DateRangeTooLarge` iff
`to − from ≥ 7` days (so only ranges with `to − from ≤ 6` proceed — the
ceiling of the inclusive-end difference is `to − from + 1`); the admin
listing applies no past-date or range-size restriction and always
returns the range query. -/
theorem c8_range_check (today f t : Nat) (ib : Bool) (db : DB)
    (hpast : today ≤ f) :
    (getAvailableSlots today (some (some f)) (some (some t)) ib db
        = ListResult.dateRangeTooLarge ↔ 7 ≤ (t : Int) - (f : Int)) ∧
    getAllSlots (some (some f)) (some (some t)) db
      = ListResult.ok (rangeFilter (f * msPerDay) (t * msPerDay + 86399000) true db) := by
  constructor
  · have hnp : ¬ (f * msPerDay < today * msPerDay) := by
      have := Nat.mul_le_mul_right msPerDay hpast
      omega
    simp only [getAvailableSlots, if_neg hnp, jsDaysDiff_eq]
    by_cases h7 : 7 < (t : Int) - (f : Int) + 1
    · rw [if_pos h7]
      exact ⟨fun _ => by omega, fun _ => rfl⟩
    · rw [if_neg h7]
      exact ⟨fun hcon => ListResult.noConfusion hcon, fun hge => (h7 (by omega)).elim⟩
  · rfl

/-- Witness for the amended C8 at `(today, from, to) = (0, 0, 7)`. -/
theorem c8_range_check_witness :
    (getAvailableSlots 0 (some (some 0)) (some (some 7)) false emptyDB
        = ListResult.dateRangeTooLarge ↔
      7 ≤ ((7 : Nat) : Int) - ((0 : Nat) : Int)) ∧
    getAllSlots (some (some 0)) (some (some 7)) emptyDB
      = ListResult.ok (rangeFilter (0 * msPerDay) (7 * msPerDay + 86399000) true emptyDB) :=
  c8_range_check 0 0 7 false emptyDB (Nat.le_refl 0)

/-! ## C9 -/

/-- Interleaving even/odd images over a doubled range: the algebraic
bridge between the two-per-hour loop and the single 16-slot index. -/
theorem flatMap_pairs_eq_map_range {α : Type} (f : Nat → α) (n : Nat) :
    (List.range n).flatMap (fun h => [f (2 * h), f (2 * h + 1)]) =
      (List.range (2 * n)).map f := by
  induction n with
  | zero => rfl
  | succ n ih =>
      rw [List.range_succ, List.flatMap_append, ih]
      have h2 : 2 * (n + 1) = (2 * n + 1) + 1 := by ring
      rw [h2, List.range_succ, List.range_succ, List.map_append, List.map_append]
      simp

/-- The nested hour/minute loops for one day produce exactly the
canonical sixteen consecutive 30-minute slots. -/
theorem slotTimesForDay_eq (d : Nat) : slotTimesForDay d = expectedDaySlots d := by
  have hinner : ∀ h : Nat,
      ([0, 30].map fun m =>
        let slotStart := d * msPerDay + (9 + h) * 3600000 + m * 60000
        (slotStart, slotStart + 1800000)) =
      [(d * msPerDay + 9 * 3600000 + (2 * h) * 1800000,
        d * msPerDay + 9 * 3600000 + (2 * h + 1) * 1800000),
       (d * msPerDay + 9 * 3600000 + (2 * h + 1) * 1800000,
        d * msPerDay + 9 * 3600000 + (2 * h + 1 + 1) * 1800000)] := by
    intro h
    simp only [List.map_cons, List.map_nil]
    have e1 : d * msPerDay + (9 + h) * 3600000 + 0 * 60000
        = d * msPerDay + 9 * 3600000 + (2 * h) * 1800000 := by ring
    have e3 : d * msPerDay + (9 + h) * 3600000 + 30 * 60000
        = d * msPerDay + 9 * 3600000 + (2 * h + 1) * 1800000 := by ring
    rw [e1, e3]
    have e2 : d * msPerDay + 9 * 3600000 + (2 * h) * 1800000 + 1800000
        = d * msPerDay + 9 * 3600000 + (2 * h + 1) * 1800000 := by ring
    have e4 : d * msPerDay + 9 * 3600000 + (2 * h + 1) * 1800000 + 1800000
        = d * msPerDay + 9 * 3600000 + (2 * h + 1 + 1) * 1800000 := by ring
    rw [e2, e4]
  show (List.range 8).flatMap (fun h =>
      [0, 30].map fun m =>
        let slotStart := d * msPerDay + (9 + h) * 3600000 + m * 60000
        (slotStart, slotStart + 1800000)) = expectedDaySlots d
  rw [funext hinner]
  exact flatMap_pairs_eq_map_range
    (fun k => (d * msPerDay + 9 * 3600000 + k * 1800000,
      d * msPerDay + 9 * 3600000 + (k + 1) * 1800000)) 8

/-- **C9.** Over a fresh slot store, generation for the window
`[startDay, startDay + days)` produces, day by day, nothing for a
Saturday or Sunday and exactly the sixteen 30-minute slots
`expectedDaySlots` for every other day; those sixteen slots are each 30
minutes long, lie within `[09:00, 17:00]` of their day, start at 09:00
and end at 17:00. -/
theorem c9_generation (db : DB) (hdb : db.slots = []) (startDay days : Nat) :
    generateSlotsPairs db startDay days =
      (List.range days).flatMap
        (fun i => if isWeekend (startDay + i) then [] else expectedDaySlots (startDay + i)) ∧
    (∀ d, (expectedDaySlots d).length = 16) ∧
    (∀ d pr, pr ∈ expectedDaySlots d →
      pr.2 = pr.1 + 1800000 ∧ d * msPerDay + 9 * 3600000 ≤ pr.1 ∧
        pr.2 ≤ d * msPerDay + 17 * 3600000) ∧
    (∀ d, (expectedDaySlots d).head? =
      some (d * msPerDay + 9 * 3600000, d * msPerDay + 9 * 3600000 + 1800000)) ∧
    (∀ d, (expectedDaySlots d).getLast? =
      some (d * msPerDay + 9 * 3600000 + 15 * 1800000, d * msPerDay + 17 * 3600000)) := by
  refine ⟨?_, ?_, ?_, ?_, ?_⟩
  · simp [generateSlotsPairs, hdb, slotTimesForDay_eq]
  · intro d
    rfl
  · intro d pr hpr
    simp only [expectedDaySlots, List.mem_map, List.mem_range] at hpr
    obtain ⟨k, hk, rfl⟩ := hpr
    refine ⟨?_, ?_, ?_⟩
    · show d * msPerDay + 9 * 3600000 + (k + 1) * 1800000
        = d * msPerDay + 9 * 3600000 + k * 1800000 + 1800000
      ring
    · show d * msPerDay + 9 * 3600000 ≤ d * msPerDay + 9 * 3600000 + k * 1800000
      omega
    · show d * msPerDay + 9 * 3600000 + (k + 1) * 1800000 ≤ d * msPerDay + 17 * 3600000
      have hle : (k + 1) * 1800000 ≤ 16 * 1800000 := Nat.mul_le_mul_right _ (by omega)
      omega
  · intro d
    rfl
  · intro d
    have e : d * msPerDay + 17 * 3600000
        = d * msPerDay + 9 * 3600000 + (15 + 1) * 1800000 := by ring
    rw [e]
    rfl

/-- Witness for C9 over the empty store, for the spec's boundary window:
7 days starting on a Saturday (epoch day 2 is Saturday 1970-01-03). -/
theorem c9_generation_witness :
    generateSlotsPairs emptyDB 2 7 =
      (List.range 7).flatMap
        (fun i => if isWeekend (2 + i) then [] else expectedDaySlots (2 + i)) :=
  (c9_generation emptyDB rfl 2 7).1

end ClinicBooking
